import Mathlib

/-!
# Task service of `precode.go`

A shallow embedding of the four HTTP handlers of `precode.go`
(`listTasks`, `createTask`, `getTaskById`, `deleteTaskById`) over the
package-level map `tasks`, followed by the properties of the CRUD contract.

Modelling choices.

* The global `map[string]Task` becomes an explicit `Store` value that every
  handler receives and returns. It is a key-unique association list, so
  every `Store` value is a genuine map state and its length is the Go `len`.
* A Go `string` is a Lean `String`; `len(s)` is the UTF-8 byte size.
* A Go `[]string` is `Option (List String)`: `none` is the nil slice (which
  `encoding/json` writes as `null`), `some xs` a non-nil slice.
* `encoding/json` is a library outside the repository: the three calls the
  handlers make are the fields of `EncodingJSON`.
* The effect of a handler on the `http.ResponseWriter` is the `Response` it
  yields; what it prints on the `debug` logger is its list of `LogLine`s.
-/

namespace Precode

/-- Raw bytes, as carried by a request body or a response body. -/
abbrev Bytes := List UInt8

/-- The record `Task` of `precode.go`, one field per struct field. -/
structure Task where
  ID : String
  Description : String
  Note : String
  Applications : Option (List String)
deriving DecidableEq

/-- The type of the package-level variable `tasks`: `map[string]Task`. -/
abbrev Store := AList (fun _ : String => Task)

/-- The Go `len(s)` on a string: the number of bytes. -/
def len (s : String) : Nat := s.utf8ByteSize

/-- The comma-ok read `task, ok := tasks[id]`: `none` stands for `ok == false`. -/
def Store.get (tasks : Store) (id : String) : Option Task := AList.lookup id tasks

/-- The assignment `tasks[id] = task`: inserts, or overwrites the entry of `id`. -/
def Store.set (tasks : Store) (id : String) (task : Task) : Store := AList.insert id task tasks

/-- The builtin `delete(tasks, id)`. -/
def Store.delete (tasks : Store) (id : String) : Store := AList.erase id tasks

/-- The builtin `len(tasks)`: number of entries of the map. -/
def Store.size (tasks : Store) : Nat := tasks.entries.length

/-- First seeded task, stored under key "1". -/
def task1 : Task :=
  { ID := "1"
    Description := "Сделать финальное задание темы REST API"
    Note := "Если сегодня сделаю, то завтра будет свободный день. Ура!"
    Applications := some ["VS Code", "Terminal", "git"] }

/-- Second seeded task, stored under key "2". -/
def task2 : Task :=
  { ID := "2"
    Description := "Протестировать финальное задание с помощью Postmen"
    Note := "Лучше это делать в процессе разработки, каждый раз, когда запускаешь сервер и проверяешь хендлер"
    Applications := some ["VS Code", "Terminal", "git", "Postman"] }

/-- The initial value of the variable `tasks` (the map literal of the source). -/
def tasks : Store := ((∅ : Store).set "2" task2).set "1" task1

/-- The calls into `encoding/json` made by the handlers. `json.Marshal`
returns `(bytes, err)` and `json.Unmarshal` fills a zero `Task` or returns an
error; `Except.error` carries the error text. `json.Marshal` fails only on
values it cannot represent (channels, functions, cyclic data, NaN), none of
which occurs in a `Task` or in a `map[string]Task`: the two last fields
record that. -/
structure EncodingJSON where
  MarshalTasks : Store → Except String Bytes
  MarshalTask : Task → Except String Bytes
  Unmarshal : Bytes → Except String Task
  MarshalTasks_ok : ∀ m, ∃ b, MarshalTasks m = Except.ok b
  MarshalTask_ok : ∀ t, ∃ b, MarshalTask t = Except.ok b

/-- The part of `*http.Request` the handlers read: the route parameters that
chi has bound (keys and values, in binding order), and the outcome of reading
`r.Body` to its end (`Except.error` when the read fails). -/
structure Request where
  urlParams : List (String × String)
  body : Except String Bytes

/-- The chi call `URLParam(r, key)`: the value of the last binding of `key`, or the
empty string when `key` is not bound. -/
def URLParam (r : Request) (key : String) : String :=
  match r.urlParams.reverse.find? (fun kv => kv.1 == key) with
  | some kv => kv.2
  | none => ""

/-- What a handler has written on its `http.ResponseWriter`. -/
structure Response where
  status : Nat
  contentType : String
  body : Bytes
deriving DecidableEq

/-- The constant `http.StatusOK`. -/
def StatusOK : Nat := 200

/-- The constant `http.StatusCreated`. -/
def StatusCreated : Nat := 201

/-- The Go `http.StatusText` on the codes the handlers use. -/
def StatusText (code : Nat) : String :=
  if code = 200 then "OK"
  else if code = 201 then "Created"
  else if code = 400 then "Bad Request"
  else if code = 500 then "Internal Server Error"
  else ""

/-- The Go `http.Error(w, text, code)`: a plain-text reply with the given
status whose body is the text followed by a newline. -/
def httpError (text : String) (code : Nat) : Response :=
  { status := code
    contentType := "text/plain; charset=utf-8"
    body := (text ++ "\n").toUTF8.toList }

/-- The lines the handlers print through `debug.Printf`, with their arguments. -/
inductive LogLine where
  | listMarshalFailed
  | createBodyUnreadable
  | createInvalidJSON
  | createRejected
  | createOverwrite
  | createCreated (task : Task)
  | getNotFound (id : String)
  | getMarshalFailed
  | deleteNotFound (id : String)
  | deleteDeleted (id : String)
deriving DecidableEq

/-- The result of running one handler: the reply, the value of the variable
`tasks` afterwards, and the lines logged. -/
structure Outcome where
  resp : Response
  tasks : Store
  log : List LogLine

/-- The handler `listTasks` (GET /tasks). -/
def listTasks (J : EncodingJSON) (tasks : Store) (_r : Request) : Outcome :=
  match J.MarshalTasks tasks with
  | Except.error _ =>
    { resp := httpError (StatusText 500) 500, tasks := tasks, log := [LogLine.listMarshalFailed] }
  | Except.ok bytes =>
    { resp := { status := StatusOK, contentType := "application/json", body := bytes }
      tasks := tasks
      log := [] }

/-- The handler `createTask` (POST /tasks). -/
def createTask (J : EncodingJSON) (tasks : Store) (r : Request) : Outcome :=
  match r.body with
  | Except.error _ =>
    { resp := httpError (StatusText 400) 400, tasks := tasks, log := [LogLine.createBodyUnreadable] }
  | Except.ok reader =>
    match J.Unmarshal reader with
    | Except.error _ =>
      { resp := httpError (StatusText 400) 400, tasks := tasks, log := [LogLine.createInvalidJSON] }
    | Except.ok task =>
      if len task.ID = 0 ∨ len task.Description = 0 then
        { resp := httpError (StatusText 400) 400, tasks := tasks, log := [LogLine.createRejected] }
      else
        let overwrite : List LogLine :=
          match tasks.get task.ID with
          | some _ => [LogLine.createOverwrite]
          | none => []
        { resp := { status := StatusCreated, contentType := "application/json", body := [] }
          tasks := tasks.set task.ID task
          log := overwrite ++ [LogLine.createCreated task] }

/-- The handler `getTaskById` (GET /tasks/{id}). -/
def getTaskById (J : EncodingJSON) (tasks : Store) (r : Request) : Outcome :=
  let id := URLParam r "id"
  match tasks.get id with
  | none =>
    { resp := httpError (StatusText 400) 400, tasks := tasks, log := [LogLine.getNotFound id] }
  | some task =>
    match J.MarshalTask task with
    | Except.error _ =>
      { resp := httpError (StatusText 400) 400, tasks := tasks, log := [LogLine.getMarshalFailed] }
    | Except.ok bytes =>
      { resp := { status := StatusOK, contentType := "application/json", body := bytes }
        tasks := tasks
        log := [] }

/-- The handler `deleteTaskById` (DELETE /tasks/{id}). -/
def deleteTaskById (tasks : Store) (r : Request) : Outcome :=
  let id := URLParam r "id"
  match tasks.get id with
  | none =>
    { resp := httpError (StatusText 400) 400, tasks := tasks, log := [LogLine.deleteNotFound id] }
  | some _ =>
    { resp := { status := StatusOK, contentType := "application/json", body := [] }
      tasks := tasks.delete id
      log := [LogLine.deleteDeleted id] }

/-- The four routes registered in `main`. -/
inductive Route where
  | getTasks
  | postTasks
  | getTask
  | deleteTask
deriving DecidableEq

/-- Dispatch of one routed request to its handler, as wired in `main`. -/
def serve (J : EncodingJSON) (tasks : Store) (call : Route × Request) : Outcome :=
  match call.1 with
  | Route.getTasks => listTasks J tasks call.2
  | Route.postTasks => createTask J tasks call.2
  | Route.getTask => getTaskById J tasks call.2
  | Route.deleteTask => deleteTaskById tasks call.2

/-- The value of the variable `tasks` after serving the requests in order,
starting from the value `start`. -/
def serveAll (J : EncodingJSON) (start : Store) (calls : List (Route × Request)) : Store :=
  calls.foldl (fun cur call => (serve J cur call).tasks) start

/-- Every task of the store has a non-empty id and a non-empty description. -/
def RequiredFields (tasks : Store) : Prop :=
  ∀ k t, tasks.get k = some t → t.ID ≠ "" ∧ t.Description ≠ ""

/-- Every task of the store is stored under its own id. -/
def KeyedById (tasks : Store) : Prop :=
  ∀ k t, tasks.get k = some t → t.ID = k

/-- A request to a route with an `{id}` segment bound to `id`. -/
def idRequest (id : String) : Request :=
  { urlParams := [("id", id)], body := Except.ok [] }

/-- A request carrying the body `bytes` and no route parameter. -/
def bodyRequest (bytes : Bytes) : Request :=
  { urlParams := [], body := Except.ok bytes }

/-- The zero value of `Task`, what `var task Task` declares. -/
def zeroTask : Task :=
  { ID := "", Description := "", Note := "", Applications := none }

/-- A task with the two required fields only. -/
def taskX : Task :=
  { ID := "3", Description := "x", Note := "", Applications := none }

/-- A second task with the id of `taskX` and every other field different. -/
def taskY : Task :=
  { ID := "3", Description := "y", Note := "later", Applications := some ["git"] }

/-- A small stand-in for `encoding/json`, used to run the handlers on
concrete requests. It decodes the one-byte bodies 0, 1 and 2 to `zeroTask`,
`taskX` and `taskY`, and reports a syntax error on every other body. -/
def sampleJSON : EncodingJSON :=
  { MarshalTasks := fun m => Except.ok (m.keys.map (fun k => k.utf8ByteSize.toUInt8))
    MarshalTask := fun t => Except.ok [t.ID.utf8ByteSize.toUInt8, t.Description.utf8ByteSize.toUInt8]
    Unmarshal := fun b =>
      if b = [0] then Except.ok zeroTask
      else if b = [1] then Except.ok taskX
      else if b = [2] then Except.ok taskY
      else Except.error "invalid character"
    MarshalTasks_ok := fun _ => ⟨_, rfl⟩
    MarshalTask_ok := fun _ => ⟨_, rfl⟩ }

/-! ## Auxiliary facts -/

theorem len_eq_zero_iff (s : String) : len s = 0 ↔ s = "" := by
  constructor
  · intro h
    cases s with
    | mk l =>
      cases l with
      | nil => rfl
      | cons c cs =>
        exfalso
        have hc := Char.utf8Size_pos c
        simp only [len, String.utf8ByteSize, String.utf8ByteSize.go] at h
        omega
  · intro h
    subst h
    rfl

theorem createTask_valid (J : EncodingJSON) (tasks : Store) (r : Request) (body : Bytes)
    (t : Task) (hbody : r.body = Except.ok body) (hdec : J.Unmarshal body = Except.ok t)
    (hid : t.ID ≠ "") (hdesc : t.Description ≠ "") :
    (createTask J tasks r).resp
        = { status := 201, contentType := "application/json", body := [] }
      ∧ (createTask J tasks r).tasks = tasks.set t.ID t := by
  simp [createTask, hbody, hdec, len_eq_zero_iff, hid, hdesc, StatusCreated]

theorem createTask_invalid (J : EncodingJSON) (tasks : Store) (r : Request)
    (h : ¬ ∃ body t, r.body = Except.ok body ∧ J.Unmarshal body = Except.ok t
        ∧ t.ID ≠ "" ∧ t.Description ≠ "") :
    (createTask J tasks r).resp = httpError "Bad Request" 400
      ∧ (createTask J tasks r).tasks = tasks := by
  cases hbody : r.body with
  | error e => simp [createTask, hbody, StatusText]
  | ok body =>
    cases hdec : J.Unmarshal body with
    | error e => simp [createTask, hbody, hdec, StatusText]
    | ok t =>
      by_cases hv : len t.ID = 0 ∨ len t.Description = 0
      · simp [createTask, hbody, hdec, hv, StatusText]
      · exfalso
        apply h
        refine ⟨body, t, hbody, hdec, ?_, ?_⟩
        · intro h0
          exact hv (Or.inl ((len_eq_zero_iff _).2 h0))
        · intro h0
          exact hv (Or.inr ((len_eq_zero_iff _).2 h0))

theorem httpError_status (text : String) (code : Nat) : (httpError text code).status = code := rfl

theorem getTaskById_tasks (J : EncodingJSON) (tasks : Store) (r : Request) :
    (getTaskById J tasks r).tasks = tasks := by
  unfold getTaskById
  dsimp only
  split
  · rfl
  · split <;> rfl

theorem listTasks_tasks (J : EncodingJSON) (tasks : Store) (r : Request) :
    (listTasks J tasks r).tasks = tasks := by
  unfold listTasks
  split <;> rfl

theorem getTaskById_found (J : EncodingJSON) (tasks : Store) (r : Request) (task : Task)
    (h : tasks.get (URLParam r "id") = some task) :
    ∃ bytes, J.MarshalTask task = Except.ok bytes
      ∧ (getTaskById J tasks r).resp
          = { status := 200, contentType := "application/json", body := bytes } := by
  obtain ⟨bytes, hb⟩ := J.MarshalTask_ok task
  refine ⟨bytes, hb, ?_⟩
  simp [getTaskById, h, hb, StatusOK]

theorem getTaskById_absent (J : EncodingJSON) (tasks : Store) (r : Request)
    (h : tasks.get (URLParam r "id") = none) :
    (getTaskById J tasks r).resp = httpError "Bad Request" 400
      ∧ (getTaskById J tasks r).log = [LogLine.getNotFound (URLParam r "id")] := by
  simp [getTaskById, h, StatusText]

theorem deleteTaskById_absent (tasks : Store) (r : Request)
    (h : tasks.get (URLParam r "id") = none) :
    (deleteTaskById tasks r).resp = httpError "Bad Request" 400
      ∧ (deleteTaskById tasks r).tasks = tasks
      ∧ (deleteTaskById tasks r).log = [LogLine.deleteNotFound (URLParam r "id")] := by
  simp [deleteTaskById, h, StatusText]

theorem deleteTaskById_present (tasks : Store) (r : Request) (task : Task)
    (h : tasks.get (URLParam r "id") = some task) :
    (deleteTaskById tasks r).resp
        = { status := 200, contentType := "application/json", body := [] }
      ∧ (deleteTaskById tasks r).tasks = tasks.delete (URLParam r "id") := by
  simp [deleteTaskById, h, StatusOK]

theorem Store.get_set_self (tasks : Store) (id : String) (task : Task) :
    (tasks.set id task).get id = some task := by
  simp [Store.get, Store.set]

theorem Store.get_set_other (tasks : Store) (id k : String) (task : Task) (h : k ≠ id) :
    (tasks.set id task).get k = tasks.get k := by
  simp [Store.get, Store.set, AList.lookup_insert_ne h]

theorem Store.get_delete_self (tasks : Store) (id : String) :
    (tasks.delete id).get id = none := by
  simp [Store.get, Store.delete]

theorem Store.get_delete_other (tasks : Store) (id k : String) (h : k ≠ id) :
    (tasks.delete id).get k = tasks.get k := by
  simp [Store.get, Store.delete, AList.lookup_erase_ne h]

theorem Store.get_eq_none_iff (tasks : Store) (id : String) :
    tasks.get id = none ↔ id ∉ tasks.keys := by
  simp [Store.get, AList.lookup_eq_none, AList.mem_keys]

theorem Store.size_delete (tasks : Store) (id : String) (h : id ∈ tasks.keys) :
    (tasks.delete id).size + 1 = tasks.size := by
  have h1 : (tasks.delete id).size = (tasks.keys.erase id).length := by
    rw [← AList.keys_erase]
    simp [Store.size, Store.delete, AList.keys, List.keys]
  have h2 : tasks.size = tasks.keys.length := by
    simp [Store.size, AList.keys, List.keys]
  rw [h1, h2, List.length_erase_of_mem h]
  have hpos : 0 < tasks.keys.length := List.length_pos_of_mem h
  omega

theorem Store.get_empty (k : String) : (∅ : Store).get k = none := by
  simp [Store.get]

theorem Store.get_set_cases (tasks : Store) (id k : String) (task t : Task)
    (h : (tasks.set id task).get k = some t) :
    (k = id ∧ t = task) ∨ (k ≠ id ∧ tasks.get k = some t) := by
  by_cases hk : k = id
  · subst hk
    rw [Store.get_set_self] at h
    exact Or.inl ⟨rfl, (Option.some.inj h).symm⟩
  · rw [Store.get_set_other tasks id k task hk] at h
    exact Or.inr ⟨hk, h⟩

theorem Store.get_delete_some (tasks : Store) (id k : String) (t : Task)
    (h : (tasks.delete id).get k = some t) : k ≠ id ∧ tasks.get k = some t := by
  by_cases hk : k = id
  · subst hk
    rw [Store.get_delete_self] at h
    exact absurd h (by simp)
  · rw [Store.get_delete_other tasks id k hk] at h
    exact ⟨hk, h⟩

theorem createTask_cases (J : EncodingJSON) (tasks : Store) (r : Request) :
    ((createTask J tasks r).resp = httpError "Bad Request" 400
        ∧ (createTask J tasks r).tasks = tasks)
      ∨ ∃ body t, r.body = Except.ok body ∧ J.Unmarshal body = Except.ok t
          ∧ t.ID ≠ "" ∧ t.Description ≠ ""
          ∧ (createTask J tasks r).resp
              = { status := 201, contentType := "application/json", body := [] }
          ∧ (createTask J tasks r).tasks = tasks.set t.ID t := by
  by_cases h : ∃ body t, r.body = Except.ok body ∧ J.Unmarshal body = Except.ok t
      ∧ t.ID ≠ "" ∧ t.Description ≠ ""
  · obtain ⟨body, t, hbody, hdec, hid, hdesc⟩ := h
    have hv := createTask_valid J tasks r body t hbody hdec hid hdesc
    exact Or.inr ⟨body, t, hbody, hdec, hid, hdesc, hv.1, hv.2⟩
  · exact Or.inl (createTask_invalid J tasks r h)

theorem deleteTaskById_cases (tasks : Store) (r : Request) :
    (tasks.get (URLParam r "id") = none
        ∧ (deleteTaskById tasks r).resp = httpError "Bad Request" 400
        ∧ (deleteTaskById tasks r).tasks = tasks)
      ∨ ∃ task, tasks.get (URLParam r "id") = some task
          ∧ (deleteTaskById tasks r).resp
              = { status := 200, contentType := "application/json", body := [] }
          ∧ (deleteTaskById tasks r).tasks = tasks.delete (URLParam r "id") := by
  cases h : tasks.get (URLParam r "id") with
  | none =>
    have hd := deleteTaskById_absent tasks r h
    exact Or.inl ⟨rfl, hd.1, hd.2.1⟩
  | some task =>
    have hd := deleteTaskById_present tasks r task h
    exact Or.inr ⟨task, rfl, hd.1, hd.2⟩

theorem serveAll_preserves (J : EncodingJSON) (P : Store → Prop)
    (hstep : ∀ s call, P s → P (serve J s call).tasks) (calls : List (Route × Request)) :
    ∀ start, P start → P (serveAll J start calls) := by
  induction calls with
  | nil =>
    intro start h
    exact h
  | cons call rest ih =>
    intro start h
    exact ih (serve J start call).tasks (hstep start call h)

theorem serve_preserves (J : EncodingJSON) (P : Store → Prop)
    (hcreate : ∀ s r, P s → P (createTask J s r).tasks)
    (hdelete : ∀ s r, P s → P (deleteTaskById s r).tasks)
    (s : Store) (call : Route × Request) (h : P s) : P (serve J s call).tasks := by
  obtain ⟨route, r⟩ := call
  cases route with
  | getTasks =>
    show P (listTasks J s r).tasks
    rw [listTasks_tasks]
    exact h
  | postTasks => exact hcreate s r h
  | getTask =>
    show P (getTaskById J s r).tasks
    rw [getTaskById_tasks]
    exact h
  | deleteTask => exact hdelete s r h

theorem RequiredFields_initial : RequiredFields tasks := by
  intro k t h
  rcases Store.get_set_cases _ _ _ _ _ h with ⟨_, ht⟩ | ⟨_, h2⟩
  · subst ht
    decide
  · rcases Store.get_set_cases _ _ _ _ _ h2 with ⟨_, ht⟩ | ⟨_, h3⟩
    · subst ht
      decide
    · rw [Store.get_empty] at h3
      exact absurd h3 (by simp)

theorem KeyedById_initial : KeyedById tasks := by
  intro k t h
  rcases Store.get_set_cases _ _ _ _ _ h with ⟨hk, ht⟩ | ⟨_, h2⟩
  · subst ht
    exact hk.symm
  · rcases Store.get_set_cases _ _ _ _ _ h2 with ⟨hk, ht⟩ | ⟨_, h3⟩
    · subst ht
      exact hk.symm
    · rw [Store.get_empty] at h3
      exact absurd h3 (by simp)

theorem RequiredFields_createTask (J : EncodingJSON) (s : Store) (r : Request)
    (h : RequiredFields s) : RequiredFields (createTask J s r).tasks := by
  rcases createTask_cases J s r with ⟨_, hs⟩ | ⟨body, t, _, _, hid, hdesc, _, hs⟩
  · rw [hs]
    exact h
  · rw [hs]
    intro k u hu
    rcases Store.get_set_cases _ _ _ _ _ hu with ⟨_, hut⟩ | ⟨_, hold⟩
    · subst hut
      exact ⟨hid, hdesc⟩
    · exact h k u hold

theorem RequiredFields_deleteTaskById (s : Store) (r : Request)
    (h : RequiredFields s) : RequiredFields (deleteTaskById s r).tasks := by
  rcases deleteTaskById_cases s r with ⟨_, _, hs⟩ | ⟨task, _, _, hs⟩
  · rw [hs]
    exact h
  · rw [hs]
    intro k u hu
    exact h k u (Store.get_delete_some _ _ _ _ hu).2

theorem KeyedById_createTask (J : EncodingJSON) (s : Store) (r : Request)
    (h : KeyedById s) : KeyedById (createTask J s r).tasks := by
  rcases createTask_cases J s r with ⟨_, hs⟩ | ⟨body, t, _, _, _, _, _, hs⟩
  · rw [hs]
    exact h
  · rw [hs]
    intro k u hu
    rcases Store.get_set_cases _ _ _ _ _ hu with ⟨hk, hut⟩ | ⟨_, hold⟩
    · subst hut
      exact hk.symm
    · exact h k u hold

theorem KeyedById_deleteTaskById (s : Store) (r : Request)
    (h : KeyedById s) : KeyedById (deleteTaskById s r).tasks := by
  rcases deleteTaskById_cases s r with ⟨_, _, hs⟩ | ⟨task, _, _, hs⟩
  · rw [hs]
    exact h
  · rw [hs]
    intro k u hu
    exact h k u (Store.get_delete_some _ _ _ _ hu).2

/-! ## The CRUD contract -/

/-- C1: from any store, when createTask receives a body that decodes to a task
t with non-empty id and description, a following getTaskById with id = t.ID
reads exactly t from the store (all four fields) and answers 200 with the
JSON encoding of t. -/
theorem create_then_get (J : EncodingJSON) (store : Store) (r g : Request) (body : Bytes)
    (t : Task) (hbody : r.body = Except.ok body) (hdec : J.Unmarshal body = Except.ok t)
    (hid : t.ID ≠ "") (hdesc : t.Description ≠ "") (hg : URLParam g "id" = t.ID) :
    (createTask J store r).tasks.get (URLParam g "id") = some t
      ∧ ∃ bytes, J.MarshalTask t = Except.ok bytes
          ∧ (getTaskById J (createTask J store r).tasks g).resp
              = { status := 200, contentType := "application/json", body := bytes } := by
  have hc := (createTask_valid J store r body t hbody hdec hid hdesc).2
  have hget : (createTask J store r).tasks.get (URLParam g "id") = some t := by
    rw [hc, hg]
    exact Store.get_set_self store t.ID t
  exact ⟨hget, getTaskById_found J _ g t hget⟩

theorem create_then_get_witness :
    (createTask sampleJSON tasks (bodyRequest [1])).tasks.get (URLParam (idRequest "3") "id")
        = some taskX
      ∧ ∃ bytes, sampleJSON.MarshalTask taskX = Except.ok bytes
          ∧ (getTaskById sampleJSON (createTask sampleJSON tasks (bodyRequest [1])).tasks
                (idRequest "3")).resp
              = { status := 200, contentType := "application/json", body := bytes } :=
  create_then_get sampleJSON tasks (bodyRequest [1]) (idRequest "3") [1] taskX rfl rfl
    (by decide) (by decide) rfl

/-- C2: createTask of a valid task t followed by createTask of a valid task
u with the same id answers 201 both times and leaves the store holding
exactly u under that id; the resulting store is the one a single
createTask of u would have produced, so nothing of t remains. -/
theorem create_twice_overwrites (J : EncodingJSON) (store : Store) (r1 r2 : Request)
    (body1 body2 : Bytes) (t u : Task)
    (hbody1 : r1.body = Except.ok body1) (hdec1 : J.Unmarshal body1 = Except.ok t)
    (hbody2 : r2.body = Except.ok body2) (hdec2 : J.Unmarshal body2 = Except.ok u)
    (ht : t.ID ≠ "" ∧ t.Description ≠ "") (hu : u.ID ≠ "" ∧ u.Description ≠ "")
    (hsame : u.ID = t.ID) :
    (createTask J store r1).resp.status = 201
      ∧ (createTask J (createTask J store r1).tasks r2).resp.status = 201
      ∧ (createTask J (createTask J store r1).tasks r2).tasks.get t.ID = some u
      ∧ (createTask J (createTask J store r1).tasks r2).tasks = (createTask J store r2).tasks := by
  have h1 := createTask_valid J store r1 body1 t hbody1 hdec1 ht.1 ht.2
  have h2 := createTask_valid J (createTask J store r1).tasks r2 body2 u hbody2 hdec2 hu.1 hu.2
  have h3 := createTask_valid J store r2 body2 u hbody2 hdec2 hu.1 hu.2
  refine ⟨by rw [h1.1], by rw [h2.1], ?_, ?_⟩
  · rw [h2.2, ← hsame]
    exact Store.get_set_self _ _ _
  · rw [h2.2, h3.2, h1.2, ← hsame]
    simp [Store.set, AList.insert_insert]

theorem create_twice_overwrites_witness :
    (createTask sampleJSON tasks (bodyRequest [1])).resp.status = 201
      ∧ (createTask sampleJSON (createTask sampleJSON tasks (bodyRequest [1])).tasks
            (bodyRequest [2])).resp.status = 201
      ∧ (createTask sampleJSON (createTask sampleJSON tasks (bodyRequest [1])).tasks
            (bodyRequest [2])).tasks.get taskX.ID = some taskY
      ∧ (createTask sampleJSON (createTask sampleJSON tasks (bodyRequest [1])).tasks
            (bodyRequest [2])).tasks = (createTask sampleJSON tasks (bodyRequest [2])).tasks :=
  create_twice_overwrites sampleJSON tasks (bodyRequest [1]) (bodyRequest [2]) [1] [2]
    taskX taskY rfl rfl rfl rfl (by decide) (by decide) rfl

/-- C3: when the body decodes to a task whose id is empty or whose
description is empty, createTask takes its validation branch (the log line
of the rejection), answers 400 Bad Request, and returns the store it was
given. -/
theorem create_rejects_empty_required (J : EncodingJSON) (store : Store) (r : Request)
    (body : Bytes) (t : Task) (hbody : r.body = Except.ok body)
    (hdec : J.Unmarshal body = Except.ok t) (hempty : t.ID = "" ∨ t.Description = "") :
    (createTask J store r).resp = httpError "Bad Request" 400
      ∧ (createTask J store r).resp.status = 400
      ∧ (createTask J store r).log = [LogLine.createRejected]
      ∧ (createTask J store r).tasks = store := by
  have hv : len t.ID = 0 ∨ len t.Description = 0 := by
    rcases hempty with h | h
    · exact Or.inl ((len_eq_zero_iff _).2 h)
    · exact Or.inr ((len_eq_zero_iff _).2 h)
  simp [createTask, hbody, hdec, hv, StatusText, httpError]

theorem create_rejects_empty_required_witness :
    (createTask sampleJSON tasks (bodyRequest [0])).resp = httpError "Bad Request" 400
      ∧ (createTask sampleJSON tasks (bodyRequest [0])).resp.status = 400
      ∧ (createTask sampleJSON tasks (bodyRequest [0])).log = [LogLine.createRejected]
      ∧ (createTask sampleJSON tasks (bodyRequest [0])).tasks = tasks :=
  create_rejects_empty_required sampleJSON tasks (bodyRequest [0]) [0] zeroTask rfl rfl
    (Or.inl rfl)

/-- C4: when the id of the request is not a key of the store, deleteTaskById
answers 400 Bad Request and returns the store it was given, hence a store of
the same size. -/
theorem delete_absent_unchanged (store : Store) (r : Request)
    (habsent : URLParam r "id" ∉ store.keys) :
    (deleteTaskById store r).resp = httpError "Bad Request" 400
      ∧ (deleteTaskById store r).resp.status = 400
      ∧ (deleteTaskById store r).log = [LogLine.deleteNotFound (URLParam r "id")]
      ∧ (deleteTaskById store r).tasks = store
      ∧ (deleteTaskById store r).tasks.size = store.size := by
  have hd := deleteTaskById_absent store r ((Store.get_eq_none_iff _ _).2 habsent)
  refine ⟨hd.1, ?_, hd.2.2, hd.2.1, ?_⟩
  · rw [hd.1]
    rfl
  · rw [hd.2.1]

theorem delete_absent_unchanged_witness :
    (deleteTaskById tasks (idRequest "999")).resp = httpError "Bad Request" 400
      ∧ (deleteTaskById tasks (idRequest "999")).resp.status = 400
      ∧ (deleteTaskById tasks (idRequest "999")).log
          = [LogLine.deleteNotFound (URLParam (idRequest "999") "id")]
      ∧ (deleteTaskById tasks (idRequest "999")).tasks = tasks
      ∧ (deleteTaskById tasks (idRequest "999")).tasks.size = tasks.size :=
  delete_absent_unchanged tasks (idRequest "999") (by decide)

/-- C5: deleteTaskById answers 200 exactly when the id is a key of the store,
and in either case a getTaskById for the same id on the resulting store
finds nothing and answers 400 Bad Request. -/
theorem delete_then_get_not_found (J : EncodingJSON) (store : Store) (r g : Request)
    (hsame : URLParam g "id" = URLParam r "id") :
    ((deleteTaskById store r).resp.status = 200 ↔ URLParam r "id" ∈ store.keys)
      ∧ (deleteTaskById store r).tasks.get (URLParam g "id") = none
      ∧ (getTaskById J (deleteTaskById store r).tasks g).resp = httpError "Bad Request" 400
      ∧ (getTaskById J (deleteTaskById store r).tasks g).resp.status = 400 := by
  have hnone : (deleteTaskById store r).tasks.get (URLParam g "id") = none := by
    rw [hsame]
    rcases deleteTaskById_cases store r with ⟨h, _, hs⟩ | ⟨task, _, _, hs⟩
    · rw [hs]
      exact h
    · rw [hs]
      exact Store.get_delete_self _ _
  have hresp := (getTaskById_absent J _ g hnone).1
  refine ⟨?_, hnone, hresp, ?_⟩
  · rcases deleteTaskById_cases store r with ⟨h, hr, _⟩ | ⟨task, h, hr, _⟩
    · rw [hr]
      have hk := (Store.get_eq_none_iff _ _).1 h
      simp [httpError, hk]
    · rw [hr]
      have hk : URLParam r "id" ∈ store.keys := by
        by_contra hn
        rw [(Store.get_eq_none_iff _ _).2 hn] at h
        exact absurd h (by simp)
      simp [hk]
  · rw [hresp]
    rfl

theorem delete_then_get_not_found_witness :
    ((deleteTaskById tasks (idRequest "1")).resp.status = 200
        ↔ URLParam (idRequest "1") "id" ∈ tasks.keys)
      ∧ (deleteTaskById tasks (idRequest "1")).tasks.get (URLParam (idRequest "1") "id") = none
      ∧ (getTaskById sampleJSON (deleteTaskById tasks (idRequest "1")).tasks
            (idRequest "1")).resp = httpError "Bad Request" 400
      ∧ (getTaskById sampleJSON (deleteTaskById tasks (idRequest "1")).tasks
            (idRequest "1")).resp.status = 400 :=
  delete_then_get_not_found sampleJSON tasks (idRequest "1") (idRequest "1") rfl

/-- C6: every task of the seeded store has a non-empty id and a non-empty
description, each of the four handlers preserves that property, and so it
holds in the store reached from the seeded one by any sequence of requests. -/
theorem required_fields_invariant (J : EncodingJSON) :
    RequiredFields tasks
      ∧ (∀ s r, RequiredFields s → RequiredFields (listTasks J s r).tasks)
      ∧ (∀ s r, RequiredFields s → RequiredFields (createTask J s r).tasks)
      ∧ (∀ s r, RequiredFields s → RequiredFields (getTaskById J s r).tasks)
      ∧ (∀ s r, RequiredFields s → RequiredFields (deleteTaskById s r).tasks)
      ∧ (∀ calls, RequiredFields (serveAll J tasks calls)) := by
  refine ⟨RequiredFields_initial, ?_, RequiredFields_createTask J, ?_,
    RequiredFields_deleteTaskById, ?_⟩
  · intro s r h
    rw [listTasks_tasks]
    exact h
  · intro s r h
    rw [getTaskById_tasks]
    exact h
  · intro calls
    exact serveAll_preserves J RequiredFields
      (serve_preserves J RequiredFields (RequiredFields_createTask J)
        RequiredFields_deleteTaskById)
      calls tasks RequiredFields_initial

theorem required_fields_invariant_witness :
    RequiredFields (serveAll sampleJSON tasks
      [(Route.postTasks, bodyRequest [1]), (Route.deleteTask, idRequest "1"),
        (Route.postTasks, bodyRequest [0]), (Route.getTasks, bodyRequest [])]) :=
  (required_fields_invariant sampleJSON).2.2.2.2.2 _

/-- C7: on the seeded store listTasks answers 200 with the JSON encoding of
that store and leaves it as it is; the store has exactly the two keys "1" and
"2", and under each the seeded task with its id, description, note and
applications in order. -/
theorem list_initial (J : EncodingJSON) (r : Request) :
    (∃ bytes, J.MarshalTasks tasks = Except.ok bytes
        ∧ (listTasks J tasks r).resp
            = { status := 200, contentType := "application/json", body := bytes })
      ∧ (listTasks J tasks r).tasks = tasks
      ∧ tasks.size = 2
      ∧ (∀ k, k ∈ tasks.keys ↔ k = "1" ∨ k = "2")
      ∧ tasks.get "1" = some
          { ID := "1"
            Description := "Сделать финальное задание темы REST API"
            Note := "Если сегодня сделаю, то завтра будет свободный день. Ура!"
            Applications := some ["VS Code", "Terminal", "git"] }
      ∧ tasks.get "2" = some
          { ID := "2"
            Description := "Протестировать финальное задание с помощью Postmen"
            Note := "Лучше это делать в процессе разработки, каждый раз, когда запускаешь сервер и проверяешь хендлер"
            Applications := some ["VS Code", "Terminal", "git", "Postman"] } := by
  refine ⟨?_, listTasks_tasks J tasks r, by decide, ?_, by decide, by decide⟩
  · obtain ⟨bytes, hb⟩ := J.MarshalTasks_ok tasks
    refine ⟨bytes, hb, ?_⟩
    simp [listTasks, hb, StatusOK]
  · intro k
    have hkeys : tasks.keys = ["1", "2"] := by decide
    rw [hkeys]
    simp

theorem list_initial_witness :
    ∃ bytes, sampleJSON.MarshalTasks tasks = Except.ok bytes
      ∧ (listTasks sampleJSON tasks (bodyRequest [])).resp
          = { status := 200, contentType := "application/json", body := bytes } :=
  (list_initial sampleJSON (bodyRequest [])).1

/-- C8: createTask answers 201 exactly when the body could be read, decodes
to a task, and the decoded id and description are both non-empty; in every
other case it answers 400, so its status is always 201 or 400. -/
theorem create_status (J : EncodingJSON) (store : Store) (r : Request) :
    ((createTask J store r).resp.status = 201
        ↔ ∃ body t, r.body = Except.ok body ∧ J.Unmarshal body = Except.ok t
            ∧ t.ID ≠ "" ∧ t.Description ≠ "")
      ∧ ((¬ ∃ body t, r.body = Except.ok body ∧ J.Unmarshal body = Except.ok t
            ∧ t.ID ≠ "" ∧ t.Description ≠ "")
          → (createTask J store r).resp.status = 400)
      ∧ ((createTask J store r).resp.status = 201 ∨ (createTask J store r).resp.status = 400) := by
  by_cases h : ∃ body t, r.body = Except.ok body ∧ J.Unmarshal body = Except.ok t
      ∧ t.ID ≠ "" ∧ t.Description ≠ ""
  · obtain ⟨body, t, hbody, hdec, hid, hdesc⟩ := h
    have hv := (createTask_valid J store r body t hbody hdec hid hdesc).1
    have hs : (createTask J store r).resp.status = 201 := by rw [hv]
    refine ⟨⟨fun _ => ⟨body, t, hbody, hdec, hid, hdesc⟩, fun _ => hs⟩, ?_, Or.inl hs⟩
    intro hn
    exact absurd ⟨body, t, hbody, hdec, hid, hdesc⟩ hn
  · have hv := (createTask_invalid J store r h).1
    have hs : (createTask J store r).resp.status = 400 := by
      rw [hv]
      rfl
    refine ⟨⟨fun h201 => ?_, fun hex => absurd hex h⟩, fun _ => hs, Or.inr hs⟩
    rw [hs] at h201
    exact absurd h201 (by decide)

theorem create_status_witness :
    (createTask sampleJSON tasks (bodyRequest [1])).resp.status = 201
      ∧ (createTask sampleJSON tasks (bodyRequest [7])).resp.status = 400
      ∧ (createTask sampleJSON tasks { urlParams := [], body := Except.error "EOF" }).resp.status
          = 400 :=
  ⟨(create_status sampleJSON tasks (bodyRequest [1])).1.2
      ⟨[1], taskX, rfl, rfl, by decide, by decide⟩,
    (create_status sampleJSON tasks (bodyRequest [7])).2.1 (by
      rintro ⟨body, t, hbody, hdec, _, _⟩
      cases hbody
      cases hdec),
    (create_status sampleJSON tasks { urlParams := [], body := Except.error "EOF" }).2.1 (by
      rintro ⟨body, t, hbody, _, _, _⟩
      cases hbody)⟩

/-- C9: in the seeded store every task is stored under its own id, each of
the four handlers preserves that, so it holds in every store reached from
the seeded one by a sequence of requests; and there, whenever getTaskById
answers 200, the body it writes is the encoding of a stored task whose id is
the id that was asked for. -/
theorem keyed_by_id_invariant (J : EncodingJSON) :
    KeyedById tasks
      ∧ (∀ s r, KeyedById s → KeyedById (listTasks J s r).tasks)
      ∧ (∀ s r, KeyedById s → KeyedById (createTask J s r).tasks)
      ∧ (∀ s r, KeyedById s → KeyedById (getTaskById J s r).tasks)
      ∧ (∀ s r, KeyedById s → KeyedById (deleteTaskById s r).tasks)
      ∧ (∀ calls, KeyedById (serveAll J tasks calls))
      ∧ (∀ calls g, (getTaskById J (serveAll J tasks calls) g).resp.status = 200 →
          ∃ task, (serveAll J tasks calls).get (URLParam g "id") = some task
            ∧ task.ID = URLParam g "id"
            ∧ J.MarshalTask task
                = Except.ok (getTaskById J (serveAll J tasks calls) g).resp.body) := by
  have hall : ∀ calls, KeyedById (serveAll J tasks calls) := fun calls =>
    serveAll_preserves J KeyedById
      (serve_preserves J KeyedById (KeyedById_createTask J) KeyedById_deleteTaskById)
      calls tasks KeyedById_initial
  refine ⟨KeyedById_initial, ?_, KeyedById_createTask J, ?_, KeyedById_deleteTaskById,
    hall, ?_⟩
  · intro s r h
    rw [listTasks_tasks]
    exact h
  · intro s r h
    rw [getTaskById_tasks]
    exact h
  · intro calls g h200
    cases hget : (serveAll J tasks calls).get (URLParam g "id") with
    | none =>
      rw [(getTaskById_absent J _ g hget).1] at h200
      exact absurd h200 (by decide)
    | some task =>
      obtain ⟨bytes, hb, hr⟩ := getTaskById_found J _ g task hget
      refine ⟨task, rfl, hall calls _ _ hget, ?_⟩
      rw [hr]
      exact hb

theorem keyed_by_id_invariant_witness :
    KeyedById (serveAll sampleJSON tasks
      [(Route.postTasks, bodyRequest [1]), (Route.postTasks, bodyRequest [2]),
        (Route.deleteTask, idRequest "2"), (Route.getTask, idRequest "3")]) :=
  (keyed_by_id_invariant sampleJSON).2.2.2.2.2.1 _

/-- C10: a createTask that answers 201 for a decoded task t leaves the entry
of every key other than t.ID as it was; a deleteTaskById that answers 200
removes the key it names, leaves every other entry as it was and makes the
store one entry smaller; a createTask or deleteTaskById that does not
succeed, and every listTasks and getTaskById, returns the store it was
given. -/
theorem handlers_change_one_key (J : EncodingJSON) (store : Store) (r : Request) :
    (∀ body t, r.body = Except.ok body → J.Unmarshal body = Except.ok t →
        (createTask J store r).resp.status = 201 →
        ∀ k, k ≠ t.ID → (createTask J store r).tasks.get k = store.get k)
      ∧ ((createTask J store r).resp.status ≠ 201 → (createTask J store r).tasks = store)
      ∧ ((deleteTaskById store r).resp.status = 200 →
          URLParam r "id" ∈ store.keys
            ∧ (deleteTaskById store r).tasks.keys = store.keys.erase (URLParam r "id")
            ∧ (deleteTaskById store r).tasks.get (URLParam r "id") = none
            ∧ (∀ k, k ≠ URLParam r "id" →
                (deleteTaskById store r).tasks.get k = store.get k)
            ∧ (deleteTaskById store r).tasks.size + 1 = store.size)
      ∧ ((deleteTaskById store r).resp.status ≠ 200 → (deleteTaskById store r).tasks = store)
      ∧ (listTasks J store r).tasks = store
      ∧ (getTaskById J store r).tasks = store := by
  refine ⟨?_, ?_, ?_, ?_, listTasks_tasks J store r, getTaskById_tasks J store r⟩
  · intro body t hbody hdec h201 k hk
    rcases createTask_cases J store r with ⟨hr, _⟩ | ⟨body2, t2, hbody2, hdec2, _, _, _, hs⟩
    · rw [hr] at h201
      exact absurd h201 (by decide)
    · rw [hbody] at hbody2
      cases hbody2
      rw [hdec] at hdec2
      cases hdec2
      rw [hs]
      exact Store.get_set_other store t.ID k t hk
  · intro hne
    rcases createTask_cases J store r with ⟨_, hs⟩ | ⟨_, _, _, _, _, _, hr, _⟩
    · exact hs
    · rw [hr] at hne
      exact absurd rfl hne
  · intro h200
    rcases deleteTaskById_cases store r with ⟨_, hr, _⟩ | ⟨task, hget, _, hs⟩
    · rw [hr] at h200
      exact absurd h200 (by decide)
    · have hk : URLParam r "id" ∈ store.keys := by
        by_contra hn
        rw [(Store.get_eq_none_iff _ _).2 hn] at hget
        exact absurd hget (by simp)
      rw [hs]
      exact ⟨hk, AList.keys_erase _ _, Store.get_delete_self _ _,
        fun k hne => Store.get_delete_other store _ k hne, Store.size_delete store _ hk⟩
  · intro hne
    rcases deleteTaskById_cases store r with ⟨_, _, hs⟩ | ⟨_, _, hr, _⟩
    · exact hs
    · rw [hr] at hne
      exact absurd rfl hne

theorem handlers_change_one_key_witness :
    (createTask sampleJSON tasks (bodyRequest [1])).tasks.get "1" = tasks.get "1"
      ∧ (deleteTaskById tasks (idRequest "1")).tasks.get "2" = tasks.get "2"
      ∧ (deleteTaskById tasks (idRequest "1")).tasks.size + 1 = tasks.size :=
  ⟨(handlers_change_one_key sampleJSON tasks (bodyRequest [1])).1 [1] taskX rfl rfl (by decide) "1" (by decide),
    ((handlers_change_one_key sampleJSON tasks (idRequest "1")).2.2.1 (by decide)).2.2.2.1 "2" (by decide),
    ((handlers_change_one_key sampleJSON tasks (idRequest "1")).2.2.1 (by decide)).2.2.2.2⟩

end Precode
